import Mathlib

set_option maxHeartbeats 1000000

/-! Verification of the Sellauth Discord bot (`bot.py`): a shallow embedding
of its API-client helpers, query/mutation operations and UI handlers, with
theorems about the behaviour its specification claims. -/

/-- A parsed JSON value as Python sees it: `api_request` yields `None` when the
response body is not valid JSON, otherwise the parsed value. Python dicts are
modelled as association lists. -/
inductive PyVal where
  | none
  | bool (b : Bool)
  | int (n : Int)
  | str (s : String)
  | list (xs : List PyVal)
  | dict (kvs : List (String × PyVal))

/-- The Python exceptions the embedded code can raise. -/
inductive PyErr where
  | attributeError (typeName : String)
  | keyError (key : String)
  | typeError (msg : String)
deriving DecidableEq

/-- Python truthiness (`if js:` / `not js`). -/
def PyVal.truthy : PyVal → Bool
  | .none => false
  | .bool b => b
  | .int n => n != 0
  | .str s => s != ""
  | .list xs => !xs.isEmpty
  | .dict kvs => !kvs.isEmpty

/-- The Python type name, as it appears in error messages. -/
def PyVal.typeName : PyVal → String
  | .none => "NoneType"
  | .bool _ => "bool"
  | .int _ => "int"
  | .str _ => "str"
  | .list _ => "list"
  | .dict _ => "dict"

/-- Python `v.get(key, dflt)`: only dicts have a `get` attribute; on any other
value the attribute access raises `AttributeError`. -/
def pyGet (v : PyVal) (key : String) (dflt : PyVal) : Except PyErr PyVal :=
  match v with
  | .dict kvs => .ok ((kvs.lookup key).getD dflt)
  | other => .error (.attributeError other.typeName)

/-- Python `v[key]`: `KeyError` when a dict lacks the key, `TypeError` when the
value is not subscriptable by a string. -/
def pySubscript (v : PyVal) (key : String) : Except PyErr PyVal :=
  match v with
  | .dict kvs =>
      match kvs.lookup key with
      | some x => .ok x
      | Option.none => .error (.keyError key)
  | other => .error (.typeError (other.typeName ++ " object is not subscriptable"))

/-- Lookup in a dict-shaped `PyVal`; absent on non-dicts. -/
def pyDictLookup (v : PyVal) (key : String) : Option PyVal :=
  match v with
  | .dict kvs => kvs.lookup key
  | _ => Option.none

/-- Whether a dict-shaped `PyVal` has the given key. -/
def hasKey (v : PyVal) (key : String) : Bool :=
  (pyDictLookup v key).isSome

/-- The normalized result of `api_request`: the HTTP status code paired with
the parsed JSON body (`PyVal.none` when the body was not valid JSON). -/
structure ApiResp where
  status : Nat
  body : PyVal

/-- Model of `get_invoice` from bot.py: `GET /orders/id`; `None` when the status is not
200 or the body is falsy, otherwise `js.get("data")`. -/
def get_invoice (r : ApiResp) : Except PyErr PyVal :=
  if r.status != 200 || !r.body.truthy then .ok .none
  else pyGet r.body "data" .none

/-- Model of `get_order` from bot.py: `GET /orders/id`; `js.get("data") if js else None`.
Note: unlike `get_invoice`, the status code is never consulted. -/
def get_order (r : ApiResp) : Except PyErr PyVal :=
  if r.body.truthy then pyGet r.body "data" .none else .ok .none

/-- Model of `list_products` from bot.py: `js.get("data", []) if isinstance(js, dict)
else []`; the status code is ignored. -/
def list_products (r : ApiResp) : PyVal :=
  match r.body with
  | .dict kvs => (kvs.lookup "data").getD (.list [])
  | _ => .list []

/-- Model of `get_variants` from bot.py: `js.get("data", \x7b\x7d).get("variants", [])`;
raises `AttributeError` when `js` is `None` or otherwise not a dict, and the
status code is ignored. -/
def get_variants (r : ApiResp) : Except PyErr PyVal := do
  let d ← pyGet r.body "data" (.dict [])
  pyGet d "variants" (.list [])

/-- An outbound HTTP request as handed to `api_request`. -/
structure HttpRequest where
  method : String
  url : String
  body : PyVal

/-- Model of `append_stock` from bot.py: the PUT request it issues, with the item list
under the JSON key `deliverables`. -/
def append_stock (shopId pid vid : String) (items : List String) : HttpRequest :=
  { method := "PUT"
  , url := "https://api.sellauth.com/v1/shops/" ++ shopId ++ "/products/" ++ pid
      ++ "/deliverables/append/" ++ vid
  , body := .dict [("deliverables", .list (items.map PyVal.str))] }

/-- Model of `get_stock` from bot.py: it returns the raw `(status, body)` pair. -/
def get_stock (r : ApiResp) : Nat × PyVal := (r.status, r.body)

/-- C1: getVariants on a non-JSON response body (parsed body `None`) raises
`AttributeError` instead of returning the documented empty sequence, whatever
the status code was. -/
theorem get_variants_none_body_raises :
    ∀ st : Nat, get_variants ⟨st, PyVal.none⟩
      = .error (PyErr.attributeError "NoneType") := by
  intro st
  rfl

/-- C2 counterexample: on a non-200 response whose body still carries `data`,
`get_invoice` returns absent while `get_order` returns the data, so the two
operations disagree and the claim is false at this input. -/
theorem get_invoice_get_order_disagree :
    get_invoice ⟨500, PyVal.dict [("data", PyVal.int 1)]⟩ = .ok PyVal.none
    ∧ get_order ⟨500, PyVal.dict [("data", PyVal.int 1)]⟩ = .ok (PyVal.int 1)
    ∧ get_invoice ⟨500, PyVal.dict [("data", PyVal.int 1)]⟩
        ≠ get_order ⟨500, PyVal.dict [("data", PyVal.int 1)]⟩ := by
  refine ⟨rfl, rfl, ?_⟩
  intro h
  rw [show get_invoice ⟨500, PyVal.dict [("data", PyVal.int 1)]⟩
        = Except.ok PyVal.none from rfl] at h
  rw [show get_order ⟨500, PyVal.dict [("data", PyVal.int 1)]⟩
        = Except.ok (PyVal.int 1) from rfl] at h
  injection h with h2
  cases h2

/-- C2 amended: `get_invoice` and `get_order` agree on every response whose
status is 200 and on every response with a falsy body; only non-200 responses
with a truthy body can distinguish them. -/
theorem get_invoice_get_order_agree (r : ApiResp)
    (h : r.status = 200 ∨ r.body.truthy = false) :
    get_invoice r = get_order r := by
  unfold get_invoice get_order
  cases hb : r.body.truthy with
  | false => simp [hb]
  | true =>
      have hs : r.status = 200 := by
        rcases h with h | h
        · exact h
        · rw [hb] at h; cases h
      simp [hb, hs]

/-- C2 witness: at a concrete 200 response both operations agree. -/
theorem get_invoice_get_order_agree_witness :
    get_invoice ⟨200, PyVal.dict [("data", PyVal.int 7)]⟩
      = get_order ⟨200, PyVal.dict [("data", PyVal.int 7)]⟩ :=
  get_invoice_get_order_agree ⟨200, PyVal.dict [("data", PyVal.int 7)]⟩ (Or.inl rfl)

/-- C3 counterexample: the request body built by `append_stock` has no `items`
key at all; the item sequence sits under `deliverables`. -/
theorem append_stock_no_items_key :
    pyDictLookup (append_stock "shop" "p1" "v1" ["A"]).body "items" = Option.none
    ∧ pyDictLookup (append_stock "shop" "p1" "v1" ["A"]).body "deliverables"
        = some (PyVal.list [PyVal.str "A"]) := by
  constructor
  · rfl
  · rfl

/-- C3 amended: for every item sequence, `append_stock` issues a PUT to the
variant deliverables-append endpoint whose JSON body carries the items under
the key `deliverables` (and under no `items` key). -/
theorem append_stock_request_shape :
    ∀ (shopId pid vid : String) (items : List String),
      (append_stock shopId pid vid items).method = "PUT"
      ∧ (append_stock shopId pid vid items).url
          = "https://api.sellauth.com/v1/shops/" ++ shopId ++ "/products/" ++ pid
              ++ "/deliverables/append/" ++ vid
      ∧ pyDictLookup (append_stock shopId pid vid items).body "deliverables"
          = some (PyVal.list (items.map PyVal.str))
      ∧ pyDictLookup (append_stock shopId pid vid items).body "items"
          = Option.none := by
  intro shopId pid vid items
  refine ⟨rfl, rfl, ?_, ?_⟩
  · simp [pyDictLookup, append_stock, List.lookup]
  · simp [pyDictLookup, append_stock, List.lookup]

/-- Line-boundary characters of Python `str.splitlines`. -/
def isLineBreak (c : Char) : Bool :=
  c == '\n' || c == '\r' || c == '\x0b' || c == '\x0c' || c == '\x1c' ||
  c == '\x1d' || c == '\x1e' || c == '\x85' || c == '\u2028' || c == '\u2029'

/-- Whitespace characters stripped by Python `str.strip` (the code points that
can occur in this bot's text inputs). -/
def isPySpace (c : Char) : Bool :=
  c == ' ' || c == '\t' || c == '\n' || c == '\r' || c == '\x0b' || c == '\x0c' ||
  c == '\x1c' || c == '\x1d' || c == '\x1e' || c == '\x1f' || c == '\x85' || c == '\xa0'

/-- Worker for `pySplitlines`: `cur` holds the current line reversed. A
trailing line boundary produces no extra empty line, and `\r\n` counts as a
single boundary. -/
def splitlinesAux : List Char → List Char → List String
  | cur, [] => if cur.isEmpty then [] else [String.mk cur.reverse]
  | cur, '\r' :: '\n' :: rest => String.mk cur.reverse :: splitlinesAux [] rest
  | cur, c :: rest =>
      if isLineBreak c then String.mk cur.reverse :: splitlinesAux [] rest
      else splitlinesAux (c :: cur) rest

/-- Python `s.splitlines()`. -/
def pySplitlines (s : String) : List String :=
  splitlinesAux [] s.data

/-- Python `s.strip()`: drop leading and trailing whitespace. -/
def pyStrip (s : String) : String :=
  String.mk (((s.data.dropWhile isPySpace).reverse.dropWhile isPySpace).reverse)

/-- The item batch built by `RestockModal.on_submit`:
`[x for x in self.stock.value.splitlines() if x.strip()]`. -/
def on_submit_items (text : String) : List String :=
  (pySplitlines text).filter (fun x => pyStrip x != "")


/-- Dropping a `p`-prefix does not change whether every element satisfies
`p`. -/
theorem dropWhile_forall_iff (p : Char → Bool) (l : List Char) :
    (∀ c ∈ l.dropWhile p, p c = true) ↔ (∀ c ∈ l, p c = true) := by
  constructor
  · intro h c hc
    rw [← List.takeWhile_append_dropWhile p l] at hc
    rcases List.mem_append.1 hc with h1 | h2
    · exact List.mem_takeWhile_imp h1
    · exact h c h2
  · intro h c hc
    exact h c (List.Sublist.mem hc (List.dropWhile_sublist p))

/-- Stripping yields the empty string exactly when every character of the
input is whitespace. -/
theorem pyStrip_eq_empty_iff (x : String) :
    pyStrip x = "" ↔ x.data.all isPySpace = true := by
  have h1 : pyStrip x = "" ↔
      ((x.data.dropWhile isPySpace).reverse.dropWhile isPySpace).reverse = [] := by
    constructor
    · intro h
      have h2 := congrArg String.data h
      simpa [pyStrip] using h2
    · intro h
      simp [pyStrip, h]
  rw [h1, List.reverse_eq_nil_iff, List.dropWhile_eq_nil_iff]
  constructor
  · intro h
    rw [List.all_eq_true, ← dropWhile_forall_iff isPySpace x.data]
    intro c hc
    exact h c (List.mem_reverse.2 hc)
  · intro h c hc
    exact List.all_eq_true.1 h c
      (List.Sublist.mem (List.mem_reverse.1 hc) (List.dropWhile_sublist isPySpace))

/-- The filter in `on_submit` keeps a line exactly when it has some
non-whitespace character. -/
theorem submit_keep_iff (x : String) :
    ((pyStrip x != "") = true) ↔ (x.data.any (fun c => !(isPySpace c)) = true) := by
  rw [bne_iff_ne, Ne, pyStrip_eq_empty_iff]
  simp [List.all_eq_true, List.any_eq_true]

/-- One recorded invocation of `append_stock`. -/
structure AppendCall where
  pid : String
  vid : String
  items : List String
deriving DecidableEq

/-- The observable outcome of `RestockModal.on_submit`: the mutation calls it
issued and the confirmation message it sent. -/
structure SubmitOutcome where
  appendCalls : List AppendCall
  reply : String
deriving DecidableEq

/-- Model of `RestockModal.on_submit` from bot.py: split the submitted text into
non-blank lines, call `append_stock` once with the batch, then send
`Added N items`; the result of the append call is never inspected. -/
def on_submit (pid vid text : String) (mutationResult : ApiResp) : SubmitOutcome :=
  let _ := mutationResult
  { appendCalls := [⟨pid, vid, on_submit_items text⟩]
  , reply := "Added " ++ toString (on_submit_items text).length ++ " items" }

/-- C6: the restock text is split into lines and blank or whitespace-only
lines are dropped; the given five-line input yields exactly the three keys,
every kept line has a non-whitespace character, and every whitespace-only
line of the input is dropped. -/
theorem restock_line_splitting :
    on_submit_items "KEY1\n\nKEY2\n   \nKEY3" = ["KEY1", "KEY2", "KEY3"]
    ∧ (∀ (s x : String), x ∈ on_submit_items s →
        x.data.any (fun c => !(isPySpace c)) = true)
    ∧ (∀ (s x : String), x ∈ pySplitlines s → x.data.all isPySpace = true →
        x ∉ on_submit_items s) := by
  refine ⟨by decide, ?_, ?_⟩
  · intro s x hx
    have hx2 : x ∈ (pySplitlines s).filter (fun y => pyStrip y != "") := hx
    have hp := List.of_mem_filter hx2
    exact (submit_keep_iff x).1 hp
  · intro s x hx hall hmem
    have hm2 : x ∈ (pySplitlines s).filter (fun y => pyStrip y != "") := hmem
    have hp := List.of_mem_filter hm2
    rcases List.any_eq_true.1 ((submit_keep_iff x).1 hp) with ⟨c, hc, hnc⟩
    have h2 := List.all_eq_true.1 hall c hc
    simp [h2] at hnc

/-- C6 witness: a concrete kept line has a non-whitespace character. -/
theorem restock_line_splitting_witness :
    ("A" ∈ on_submit_items "A\n  \n")
    ∧ ("A".data.any (fun c => !(isPySpace c)) = true) :=
  ⟨by decide, restock_line_splitting.2.1 "A\n  \n" "A" (by decide)⟩

/-- C7: the confirmation sent by `on_submit` is `Added N items` with `N` the
batch size, and the whole outcome is identical for every mutation result:
the handler never branches on the append status. -/
theorem on_submit_ignores_mutation_result :
    ∀ (pid vid text : String) (r1 r2 : ApiResp),
      on_submit pid vid text r1 = on_submit pid vid text r2
      ∧ (on_submit pid vid text r1).reply
          = "Added " ++ toString (on_submit_items text).length ++ " items" := by
  intro pid vid text r1 r2
  exact ⟨rfl, rfl⟩

/-- C9: when the filtered batch is empty, `on_submit` still invokes the
mutation exactly once, with the empty item sequence. -/
theorem on_submit_empty_batch_still_calls :
    ∀ (pid vid text : String) (r : ApiResp),
      on_submit_items text = [] →
      (on_submit pid vid text r).appendCalls = [⟨pid, vid, []⟩]
      ∧ (on_submit pid vid text r).appendCalls.length = 1 := by
  intro pid vid text r h
  constructor
  · show [(⟨pid, vid, on_submit_items text⟩ : AppendCall)] = [⟨pid, vid, []⟩]
    rw [h]
  · rfl

/-- C9 witness: an all-blank submission still produces one append call with
an empty batch. -/
theorem on_submit_empty_batch_still_calls_witness :
    on_submit_items "   \n\t\n" = []
    ∧ (on_submit "p" "v" "   \n\t\n" ⟨200, PyVal.none⟩).appendCalls
        = [⟨"p", "v", []⟩] :=
  ⟨by decide,
    (on_submit_empty_batch_still_calls "p" "v" "   \n\t\n" ⟨200, PyVal.none⟩
      (by decide)).1⟩

/-- C10: kept lines are passed to the mutation verbatim: a line with leading
and trailing spaces is kept unchanged, and every batch item is literally one
of the split lines of the input. -/
theorem restock_items_verbatim :
    on_submit_items "  KEY1  " = ["  KEY1  "]
    ∧ ∀ (s x : String), x ∈ on_submit_items s → x ∈ pySplitlines s := by
  refine ⟨by decide, ?_⟩
  intro s x hx
  have hx2 : x ∈ (pySplitlines s).filter (fun y => pyStrip y != "") := hx
  exact List.mem_of_mem_filter hx2

/-- C10 witness: the padded key survives filtering and is a verbatim line of
the submitted text. -/
theorem restock_items_verbatim_witness :
    ("  KEY1  " ∈ on_submit_items "  KEY1  \nB")
    ∧ ("  KEY1  " ∈ pySplitlines "  KEY1  \nB") :=
  ⟨by decide, restock_items_verbatim.2 "  KEY1  \nB" "  KEY1  " (by decide)⟩

/-- Python `isinstance(js, list)`. -/
def PyVal.isList : PyVal → Bool
  | .list _ => true
  | _ => false

/-- Python `len` on a list value; zero elsewhere (the code only applies it
under an `isinstance(js, list)` guard). -/
def PyVal.listLen : PyVal → Nat
  | .list xs => xs.length
  | _ => 0

/-- The loop body of `quick_stock` from bot.py: for each variant `v`, fetch
the deliverables of `v["id"]` and add `len(js)` when the parsed body is a
truthy list; `fetch` maps a variant id to the API response of `get_stock`. -/
def quick_stock_loop (fetch : PyVal → ApiResp) : List PyVal → Nat → Except PyErr Nat
  | [], total => .ok total
  | v :: rest, total =>
      match pySubscript v "id" with
      | .error e => .error e
      | .ok vid =>
          let js := (get_stock (fetch vid)).2
          quick_stock_loop fetch rest
            (if js.truthy && js.isList then total + js.listLen else total)

/-- Model of `quick_stock` from bot.py: fetch the product's variants, then iterate them
accumulating deliverable counts. Iterating a string iterates its characters
and iterating a dict iterates its keys, as in Python; other non-list values
raise `TypeError`. -/
def quick_stock (r : ApiResp) (fetch : PyVal → ApiResp) : Except PyErr Nat :=
  match get_variants r with
  | .error e => .error e
  | .ok (.list vs) => quick_stock_loop fetch vs 0
  | .ok (.str s) =>
      quick_stock_loop fetch (s.data.map (fun c => PyVal.str (String.mk [c]))) 0
  | .ok (.dict kvs) => quick_stock_loop fetch (kvs.map (fun kv => PyVal.str kv.1)) 0
  | .ok other => .error (.typeError (other.typeName ++ " object is not iterable"))

/-- The stock contribution of a single variant: the length of the deliverables
body when it is a list, zero otherwise. -/
def varContrib (fetch : PyVal → ApiResp) (v : PyVal) : Nat :=
  match pySubscript v "id" with
  | .ok vid => ((get_stock (fetch vid)).2).listLen
  | .error _ => 0

/-- A value with the key has a successful subscript. -/
theorem pySubscript_of_hasKey (v : PyVal) (k : String) (h : hasKey v k = true) :
    ∃ x, pySubscript v k = .ok x := by
  cases v with
  | dict kvs =>
      cases hl : kvs.lookup k with
      | none => simp [hasKey, pyDictLookup, hl] at h
      | some x => exact ⟨x, by simp [pySubscript, hl]⟩
  | none => simp [hasKey, pyDictLookup] at h
  | bool b => simp [hasKey, pyDictLookup] at h
  | int n => simp [hasKey, pyDictLookup] at h
  | str s => simp [hasKey, pyDictLookup] at h
  | list xs => simp [hasKey, pyDictLookup] at h

/-- The accumulator form of the `quick_stock` loop: when every variant has an
`id` key, the loop returns the accumulator plus the per-variant sums. -/
theorem quick_stock_loop_eq (fetch : PyVal → ApiResp) :
    ∀ (l : List PyVal) (total : Nat),
      (∀ v ∈ l, hasKey v "id" = true) →
      quick_stock_loop fetch l total
        = .ok (total + (l.map (varContrib fetch)).sum) := by
  intro l
  induction l with
  | nil => intro total h; simp [quick_stock_loop]
  | cons v rest ih =>
      intro total h
      obtain ⟨vid, hok⟩ :=
        pySubscript_of_hasKey v "id" (h v (List.mem_cons_self v rest))
      rw [quick_stock_loop, hok]
      dsimp only
      rw [ih _ (fun w hw => h w (List.mem_cons_of_mem v hw))]
      have hstep : (if ((get_stock (fetch vid)).2).truthy
            && ((get_stock (fetch vid)).2).isList
          then total + ((get_stock (fetch vid)).2).listLen else total)
          = total + varContrib fetch v := by
        have hc : varContrib fetch v = ((get_stock (fetch vid)).2).listLen := by
          simp [varContrib, hok]
        rw [hc]
        cases hjs : (get_stock (fetch vid)).2 with
        | list xs =>
            cases xs with
            | nil => simp [PyVal.truthy, PyVal.isList, PyVal.listLen]
            | cons a as => simp [PyVal.truthy, PyVal.isList, PyVal.listLen]
        | none => simp [PyVal.truthy, PyVal.isList, PyVal.listLen]
        | bool b => simp [PyVal.truthy, PyVal.isList, PyVal.listLen]
        | int n => simp [PyVal.truthy, PyVal.isList, PyVal.listLen]
        | str s => simp [PyVal.truthy, PyVal.isList, PyVal.listLen]
        | dict kvs => simp [PyVal.truthy, PyVal.isList, PyVal.listLen]
      rw [hstep]
      simp [List.map_cons, List.sum_cons]
      omega

/-- C4: when the variant list is fetched and each variant carries an id,
`quick_stock` equals the sum of the per-variant deliverable counts (a variant
with a failed or non-list deliverables body contributing zero via
`varContrib`), and any permutation of the variant enumeration gives the same
total. -/
theorem quick_stock_correct :
    ∀ (fetch : PyVal → ApiResp) (r : ApiResp) (variants : List PyVal),
      get_variants r = .ok (.list variants) →
      (∀ v ∈ variants, hasKey v "id" = true) →
      quick_stock r fetch = .ok ((variants.map (varContrib fetch)).sum)
      ∧ (∀ (r2 : ApiResp) (variants2 : List PyVal),
          get_variants r2 = .ok (.list variants2) →
          variants2.Perm variants →
          quick_stock r2 fetch = quick_stock r fetch) := by
  intro fetch r variants hv h
  have main : ∀ (rr : ApiResp) (vs : List PyVal),
      get_variants rr = .ok (.list vs) →
      (∀ v ∈ vs, hasKey v "id" = true) →
      quick_stock rr fetch = .ok ((vs.map (varContrib fetch)).sum) := by
    intro rr vs hvs hks
    unfold quick_stock
    rw [hvs]
    simpa using quick_stock_loop_eq fetch vs 0 hks
  refine ⟨main r variants hv h, ?_⟩
  intro r2 variants2 hv2 hperm
  have hks2 : ∀ v ∈ variants2, hasKey v "id" = true :=
    fun v hm => h v (hperm.mem_iff.1 hm)
  rw [main r2 variants2 hv2 hks2, main r variants hv h]
  exact congrArg Except.ok ((hperm.map (varContrib fetch)).sum_eq)

/-- A concrete variant record with id `a`. -/
def exampleVariantA : PyVal := PyVal.dict [("id", PyVal.str "a")]

/-- A concrete variant record with id `b`. -/
def exampleVariantB : PyVal := PyVal.dict [("id", PyVal.str "b")]

/-- A concrete variant record with id `c`. -/
def exampleVariantC : PyVal := PyVal.dict [("id", PyVal.str "c")]

/-- A deliverables oracle giving variant `a` three items, `b` none and any
other variant five. -/
def exampleFetch : PyVal → ApiResp
  | PyVal.str "a" =>
      ⟨200, PyVal.list [PyVal.str "k1", PyVal.str "k2", PyVal.str "k3"]⟩
  | PyVal.str "b" => ⟨200, PyVal.list []⟩
  | _ =>
      ⟨200, PyVal.list [PyVal.str "k4", PyVal.str "k5", PyVal.str "k6",
        PyVal.str "k7", PyVal.str "k8"]⟩

/-- A product response listing variants `a`, `b`, `c`. -/
def exampleProductResp : ApiResp :=
  ⟨200, PyVal.dict [("data", PyVal.dict [("variants",
    PyVal.list [exampleVariantA, exampleVariantB, exampleVariantC])])]⟩

/-- The same product response with the first two variants swapped. -/
def exampleProductRespPerm : ApiResp :=
  ⟨200, PyVal.dict [("data", PyVal.dict [("variants",
    PyVal.list [exampleVariantB, exampleVariantA, exampleVariantC])])]⟩

/-- C4 witness: stock counts 3, 0, 5 sum to 8 in either enumeration order. -/
theorem quick_stock_correct_witness :
    quick_stock exampleProductResp exampleFetch = .ok 8
    ∧ quick_stock exampleProductRespPerm exampleFetch = .ok 8 := by
  have h := quick_stock_correct exampleFetch exampleProductResp
    [exampleVariantA, exampleVariantB, exampleVariantC] rfl (by decide)
  refine ⟨h.1, ?_⟩
  have h2 := h.2 exampleProductRespPerm
    [exampleVariantB, exampleVariantA, exampleVariantC] rfl
    (List.Perm.swap exampleVariantA exampleVariantB [exampleVariantC])
  rw [h2]
  exact h.1

/-- Python `sep.join(l)`: concatenation with separators; `TypeError` on the
first non-string element, as in Python. -/
def pyJoin (sep : String) : List PyVal → Except PyErr String
  | [] => .ok ""
  | [PyVal.str t] => .ok t
  | PyVal.str t :: rest => do
      let r ← pyJoin sep rest
      .ok (t ++ sep ++ r)
  | other :: _ =>
      .error (.typeError ("sequence item: expected str instance, "
        ++ other.typeName ++ " found"))

mutual

/-- Python `repr(v)` for parsed-JSON values: strings quoted, containers
rendered element-wise. -/
def pyRepr : PyVal → String
  | .none => "None"
  | .bool true => "True"
  | .bool false => "False"
  | .int n => toString n
  | .str s => "\x27" ++ s ++ "\x27"
  | .list xs => "[" ++ pyReprJoin xs ++ "]"
  | .dict kvs => "\x7b" ++ pyReprPairs kvs ++ "\x7d"

/-- Comma-separated reprs of list elements. -/
def pyReprJoin : List PyVal → String
  | [] => ""
  | [v] => pyRepr v
  | v :: rest => pyRepr v ++ ", " ++ pyReprJoin rest

/-- Comma-separated reprs of dict entries. -/
def pyReprPairs : List (String × PyVal) → String
  | [] => ""
  | [(k, v)] => "\x27" ++ k ++ "\x27: " ++ pyRepr v
  | (k, v) :: rest => "\x27" ++ k ++ "\x27: " ++ pyRepr v ++ ", " ++ pyReprPairs rest

end

/-- Python `str(v)`: like `repr` except that a top-level string is returned
unquoted. -/
def pyStr : PyVal → String
  | .str s => s
  | v => pyRepr v

/-- Bool test: a parsed value that is a string containing no newline. -/
def strNoNewline : PyVal → Bool
  | .str t => t.data.count '\n' == 0
  | _ => false

/-- The number of lines of a rendered text block: one more than its newline
count. -/
def lineCount (s : String) : Nat := s.data.count '\n' + 1

/-- The deliverables preview of the `invoice` command:
`"\n".join(deliverables[:10])`. Slicing a string takes its first ten
characters, as in Python; other values are not sliceable. -/
def invoice_preview (dels : PyVal) : Except PyErr String :=
  match dels with
  | .list xs => pyJoin "\n" (xs.take 10)
  | .str s => pyJoin "\n" ((s.data.take 10).map (fun c => PyVal.str (String.mk [c])))
  | other => .error (.typeError (other.typeName ++ " object is not sliceable"))

/-- The user-visible outcome of the `invoice` command. -/
inductive InvoiceReply where
  | noPermission
  | notFound
  | invoiceEmbed (title : String) (fields : List (String × String))

/-- The `invoice` slash command from bot.py, as a function of the caller's
administrator flag and the API response the order lookup would produce; the
first component counts the HTTP calls issued. -/
def invoice_command (admin : Bool) (invoiceId : String) (resp : ApiResp) :
    Except PyErr (Nat × InvoiceReply) :=
  if !admin then .ok (0, .noPermission)
  else do
    let data ← get_invoice resp
    if !data.truthy then
      return (1, .notFound)
    else do
      let email ← pyGet data "email" (.str "N/A")
      let price ← pyGet data "total_price" (.str "N/A")
      let state ← pyGet data "status" (.str "N/A")
      let prod ← pyGet data "product_name" (.str "N/A")
      let fields := [("Email", pyStr email), ("Precio", pyStr price),
        ("Estado", pyStr state), ("Producto", pyStr prod)]
      let dels ← pyGet data "deliverables" (.list [])
      if dels.truthy then do
        let preview ← invoice_preview dels
        return (1, .invoiceEmbed ("Invoice " ++ invoiceId)
          (fields ++ [("Keys / Deliverables", "```" ++ preview ++ "```")]))
      else
        return (1, .invoiceEmbed ("Invoice " ++ invoiceId) fields)

/-- C5: a caller without administrator privilege gets the permission-denied
reply and the handler issues zero HTTP calls, whatever the API would have
answered. -/
theorem invoice_no_admin_no_call :
    ∀ (invoiceId : String) (resp : ApiResp),
      invoice_command false invoiceId resp = .ok (0, InvoiceReply.noPermission) := by
  intro invoiceId resp
  rfl

/-- Joining newline-free strings with a newline yields one line per element
(and a single line for the empty join). -/
theorem pyJoin_lineCount :
    ∀ (l : List PyVal), (∀ d ∈ l, strNoNewline d = true) →
      ∃ s, pyJoin "\n" l = .ok s ∧ lineCount s = max 1 l.length := by
  intro l
  induction l with
  | nil =>
      intro h
      exact ⟨"", rfl, by simp [lineCount]⟩
  | cons d rest ih =>
      intro h
      have hd := h d (List.mem_cons_self d rest)
      obtain ⟨t, hdt, hcnt⟩ : ∃ t, d = PyVal.str t ∧ t.data.count '\n' = 0 := by
        cases d with
        | str t =>
            refine ⟨t, rfl, ?_⟩
            simpa [strNoNewline] using hd
        | none => simp [strNoNewline] at hd
        | bool b => simp [strNoNewline] at hd
        | int n => simp [strNoNewline] at hd
        | list xs => simp [strNoNewline] at hd
        | dict kvs => simp [strNoNewline] at hd
      subst hdt
      cases rest with
      | nil =>
          refine ⟨t, rfl, ?_⟩
          simp [lineCount, hcnt]
      | cons e rest2 =>
          obtain ⟨r, hr, hlc⟩ :=
            ih (fun w hw => h w (List.mem_cons_of_mem _ hw))
          refine ⟨t ++ "\n" ++ r, ?_, ?_⟩
          · rw [show pyJoin "\n" (PyVal.str t :: e :: rest2)
                = (do
                    let r2 ← pyJoin "\n" (e :: rest2)
                    Except.ok (t ++ "\n" ++ r2)) from rfl, hr]
            rfl
          · have hc2 : ((t ++ "\n" ++ r).data).count '\n'
                = (r.data).count '\n' + 1 := by
              have hdata : (t ++ "\n" ++ r).data = t.data ++ '\n' :: r.data := by
                simp
              rw [hdata, List.count_append, List.count_cons_self, hcnt]
              omega
            have h1 : lineCount (t ++ "\n" ++ r) = lineCount r + 1 := by
              show ((t ++ "\n" ++ r).data).count '\n' + 1 = lineCount r + 1
              rw [hc2]
              rfl
            rw [h1, hlc]
            simp only [List.length_cons]
            omega

/-- C8: for every deliverables array of newline-free strings, the preview the
`invoice` command renders joins at most the first ten entries, so it has at
most ten lines; entries beyond the tenth never reach the preview. -/
theorem invoice_preview_truncates :
    ∀ (xs : List PyVal),
      (∀ d ∈ xs, strNoNewline d = true) →
      ∃ s, invoice_preview (.list xs) = .ok s ∧ lineCount s ≤ 10
        ∧ invoice_preview (.list xs) = invoice_preview (.list (xs.take 10)) := by
  intro xs h
  have h10 : ∀ d ∈ xs.take 10, strNoNewline d = true :=
    fun d hd => h d (List.take_subset 10 xs hd)
  obtain ⟨s, hs, hc⟩ := pyJoin_lineCount (xs.take 10) h10
  refine ⟨s, hs, ?_, ?_⟩
  · rw [hc]
    have hlen : (xs.take 10).length ≤ 10 := by
      rw [List.length_take]
      omega
    omega
  · show pyJoin "\n" (xs.take 10) = pyJoin "\n" ((xs.take 10).take 10)
    rw [List.take_take]
    norm_num

/-- C8 witness: a deliverables array of fifty one-character keys previews in
at most ten lines. -/
theorem invoice_preview_truncates_witness :
    (∀ d ∈ List.replicate 50 (PyVal.str "K"), strNoNewline d = true)
    ∧ ∃ s, invoice_preview (.list (List.replicate 50 (PyVal.str "K"))) = .ok s
        ∧ lineCount s ≤ 10 :=
  ⟨by decide, by
    obtain ⟨s, h1, h2, h3⟩ := invoice_preview_truncates
      (List.replicate 50 (PyVal.str "K")) (by decide)
    exact ⟨s, h1, h2⟩⟩
